import Mathlib

/-!
Shallow embedding of the share-token allocator and the entry/notes route
handlers of the notely server (src/server/src/routes/entries.ts and
src/server/src/routes/notes.ts), together with theorems settling the
frozen claims about them.

Modelling conventions:
* the Prisma `entry` table is a `List Entry`; `prisma.entry.findUnique` /
  `findFirst` become `List.find?`, `create` appends, `update` maps over the
  list replacing the row whose `id` matches;
* `crypto.randomBytes(8)` is modelled by an ambient stream
  `draws : Nat → List Nat` giving the bytes drawn at each attempt;
* `async`/`throw` become `Except`: a handler either returns `.ok` with the
  new table state and the returned entry, or `.error` with the HTTP error
  it sends (a thrown allocator error surfaces as `.internal`, matching
  `next(err)` / the catch-all 500 handlers);
* request bodies use `Option` for fields that may be absent (`undefined`).
-/

namespace Notely

/-- The fields of the Prisma `entry` model that the routes read or write. -/
structure Entry where
  id : String
  userId : String
  title : String
  synopsis : String
  content : String
  categoryId : String
  pinned : Bool
  isPublic : Bool
  isDeleted : Bool
  publicShareId : Option String
deriving Repr, DecidableEq

/-- Errors a handler can answer with. -/
inductive HttpError where
  | badRequest : String → HttpError
  | notFound : String → HttpError
  | internal : String → HttpError
deriving Repr, DecidableEq

/-- Operations a handler may issue against the entry table. -/
inductive StoreOp where
  | probe : String → StoreOp
  | createRow : Entry → StoreOp
  | updateRow : String → Entry → StoreOp
  | deleteRow : String → StoreOp
deriving Repr, DecidableEq

/-- Semantics of a store operation on the entry table: a probe
(`findUnique` used as an existence check) leaves the table unchanged,
the write operations change it. -/
def applyOp (store : List Entry) : StoreOp → List Entry
  | .probe _ => store
  | .createRow e => store ++ [e]
  | .updateRow i e => store.map (fun x => if x.id == i then e else x)
  | .deleteRow i => store.filter (fun x => x.id != i)

/-- `prisma.entry.findUnique({ where: { publicShareId: c } })` used as an
existence check: does some row hold token `c`? -/
def storeConflict (store : List Entry) (c : String) : Bool :=
  (store.find? (fun e => e.publicShareId == some c)).isSome

/-- Lower-case hexadecimal digit for `n < 16` (Node's Buffer `"hex"`
encoding is lower case). -/
def hexDigit (n : Nat) : Char :=
  if n < 10 then Char.ofNat (48 + n) else Char.ofNat (87 + n)

/-- Hex encoding of one byte: two hex digits, high nibble first. -/
def byteToHex (b : Nat) : List Char :=
  [hexDigit (b / 16 % 16), hexDigit (b % 16)]

/-- `crypto.randomBytes(8).toString("hex")` applied to the drawn bytes
(`generateShareId` in both route files). -/
def generateShareId (bytes : List Nat) : String :=
  String.mk (bytes.flatMap byteToHex)

/-- Message of the error thrown when the retry loop is exhausted. -/
def exhaustedMsg : String :=
  "Failed to generate a unique publicShareId after multiple attempts."

/-- `MAX_ATTEMPTS` in `generateUniqueShareId`. -/
def MAX_ATTEMPTS : Nat := 5

/-- The body of the `while` loop of `generateUniqueShareId`, instrumented with
the list of store operations it performs.  `fuel` is the number of
attempts still allowed (`MAX_ATTEMPTS - attempts`), `i` the index of the
next random draw.  Each iteration draws a candidate, probes the store
for a row already bound to it, returns the candidate if none exists and
retries otherwise; on zero fuel the loop exits and the function throws. -/
def shareIdLoop (conflict : String → Bool) (draws : Nat → List Nat) :
    Nat → Nat → Except String String × List StoreOp
  | 0, _ => (.error exhaustedMsg, [])
  | fuel + 1, i =>
    let candidate := generateShareId (draws i)
    if conflict candidate then
      let r := shareIdLoop conflict draws fuel (i + 1)
      (r.1, .probe candidate :: r.2)
    else
      (.ok candidate, [.probe candidate])

/-- `generateUniqueShareId` (identical in entries.ts and notes.ts):
result of the bounded retry loop, starting with `MAX_ATTEMPTS` fuel. -/
def generateUniqueShareId (conflict : String → Bool) (draws : Nat → List Nat) :
    Except String String :=
  (shareIdLoop conflict draws MAX_ATTEMPTS 0).1

/-- The store operations one call to `generateUniqueShareId` performs. -/
def allocTrace (conflict : String → Bool) (draws : Nat → List Nat) :
    List StoreOp :=
  (shareIdLoop conflict draws MAX_ATTEMPTS 0).2

/-- Is a character a lower-case hexadecimal digit? -/
def isLowerHexDigit (c : Char) : Bool :=
  (Char.ofNat 48 ≤ c && c ≤ Char.ofNat 57) || (Char.ofNat 97 ≤ c && c ≤ Char.ofNat 102)

/-- `prisma.entry.update({ where: { id }, data })`: replace the row whose
`id` matches with the updated row. -/
def updateById (store : List Entry) (i : String) (e : Entry) : List Entry :=
  store.map (fun x => if x.id == i then e else x)

/-- Body of `POST /` in entries.ts (`EntryCreationData`); the required
string fields model `undefined` as `""` (both are falsy in the guard). -/
structure EntryCreationData where
  title : String
  synopsis : String
  content : String
  categoryId : String
  pinned : Option Bool
  isPublic : Option Bool
deriving Repr, DecidableEq

/-- Body of `PATCH /:id` in entries.ts (`EntryUpdateData`). -/
structure EntryUpdateData where
  title : Option String
  synopsis : Option String
  content : Option String
  categoryId : Option String
  pinned : Option Bool
  isPublic : Option Bool
deriving Repr, DecidableEq

/-- Body of `PATCH /:id` in notes.ts (it destructures exactly
`title, synopsis, content, categoryId, isPublic` — no `pinned`). -/
structure NoteUpdateData where
  title : Option String
  synopsis : Option String
  content : Option String
  categoryId : Option String
  isPublic : Option Bool
deriving Repr, DecidableEq

/-- `POST /` in entries.ts (create entry).  `categories` models the
category table (`prisma.category.findUnique` becomes membership),
`newId` the row id Prisma assigns. -/
def entriesCreate (store : List Entry) (categories : List String)
    (draws : Nat → List Nat) (userId newId : String)
    (body : EntryCreationData) : Except HttpError (List Entry × Entry) :=
  if body.title == "" || body.synopsis == "" || body.content == "" || body.categoryId == "" then
    .error (.badRequest "Title, synopsis, content, and categoryId are required.")
  else if !(categories.contains body.categoryId) then
    .error (.notFound "Invalid categoryId provided.")
  else
    match body.isPublic with
    | some true =>
      match generateUniqueShareId (storeConflict store) draws with
      | .error msg => .error (.internal msg)
      | .ok tok =>
        let e : Entry :=
          { id := newId, userId := userId, title := body.title,
            synopsis := body.synopsis, content := body.content,
            categoryId := body.categoryId, pinned := body.pinned.getD false,
            isPublic := true, isDeleted := false, publicShareId := some tok }
        .ok (store ++ [e], e)
    | _ =>
      let e : Entry :=
        { id := newId, userId := userId, title := body.title,
          synopsis := body.synopsis, content := body.content,
          categoryId := body.categoryId, pinned := body.pinned.getD false,
          isPublic := body.isPublic.getD false, isDeleted := false,
          publicShareId := none }
      .ok (store ++ [e], e)

/-- Share-id part of `PATCH /:id` in entries.ts (lines 204-212): when the
body sets `isPublic`, a true value always allocates a fresh token (even
if the entry is already public) and a false value clears it; an absent
field leaves the column untouched.  The outer `Option` is "is the column
written", the inner one the value written. -/
def entriesShareUpdate (store : List Entry) (draws : Nat → List Nat) :
    Option Bool → Except String (Option (Option String))
  | none => .ok none
  | some true =>
    match generateUniqueShareId (storeConflict store) draws with
    | .error msg => .error msg
    | .ok tok => .ok (some (some tok))
  | some false => .ok (some none)

/-- `PATCH /:id` in entries.ts (update entry, auto regenerate share id). -/
def entriesPatch (store : List Entry) (categories : List String)
    (draws : Nat → List Nat) (userId i : String)
    (body : EntryUpdateData) : Except HttpError (List Entry × Entry) :=
  match store.find? (fun e => e.id == i && e.userId == userId) with
  | none => .error (.notFound "Entry not found.")
  | some existing =>
    if existing.isDeleted then .error (.notFound "Entry not found.")
    else if body.categoryId.isSome && !(categories.contains (body.categoryId.getD "")) then
      .error (.notFound "Invalid categoryId provided.")
    else
      match entriesShareUpdate store draws body.isPublic with
      | .error msg => .error (.internal msg)
      | .ok shareUpd =>
        let e : Entry :=
          { existing with
            title := body.title.getD existing.title
            synopsis := body.synopsis.getD existing.synopsis
            content := body.content.getD existing.content
            categoryId := body.categoryId.getD existing.categoryId
            pinned := body.pinned.getD existing.pinned
            isPublic := body.isPublic.getD existing.isPublic
            publicShareId := shareUpd.getD existing.publicShareId }
        .ok (updateById store i e, e)

/-- Share-id part of `PATCH /:id` in notes.ts (lines 122-134): a token is
generated only when `isPublic` is set to true *and* the entry has no
`publicShareId` yet; setting `isPublic` to false clears it; otherwise
the column is untouched. -/
def notesShareUpdate (store : List Entry) (draws : Nat → List Nat)
    (existingShare : Option String) :
    Option Bool → Except String (Option (Option String))
  | none => .ok none
  | some true =>
    if existingShare.isNone then
      match generateUniqueShareId (storeConflict store) draws with
      | .error msg => .error msg
      | .ok tok => .ok (some (some tok))
    else .ok none
  | some false => .ok (some none)

/-- `PATCH /:id` in notes.ts (update AI-generated note).  Note the
lookup checks only `id` and `userId` — there is no `isDeleted` guard —
and a thrown allocator error is caught and answered with the generic
500 message. -/
def notesPatch (store : List Entry) (categories : List String)
    (draws : Nat → List Nat) (userId i : String)
    (body : NoteUpdateData) : Except HttpError (List Entry × Entry) :=
  match store.find? (fun e => e.id == i && e.userId == userId) with
  | none => .error (.notFound "Note not found.")
  | some existing =>
    if body.categoryId.isSome && !(categories.contains (body.categoryId.getD "")) then
      .error (.notFound "Invalid categoryId.")
    else
      match notesShareUpdate store draws existing.publicShareId body.isPublic with
      | .error _ => .error (.internal "Failed to update note.")
      | .ok shareUpd =>
        let e : Entry :=
          { existing with
            title := body.title.getD existing.title
            synopsis := body.synopsis.getD existing.synopsis
            content := body.content.getD existing.content
            categoryId := body.categoryId.getD existing.categoryId
            isPublic := body.isPublic.getD existing.isPublic
            publicShareId := shareUpd.getD existing.publicShareId }
        .ok (updateById store i e, e)

/-- `DELETE /:id` in entries.ts (soft delete). -/
def softDeleteEntry (store : List Entry) (userId i : String) :
    Except HttpError (List Entry × Entry) :=
  match store.find? (fun e => e.id == i && e.userId == userId) with
  | none => .error (.notFound "Entry not found.")
  | some existing =>
    if existing.isDeleted then .error (.notFound "Entry not found.")
    else
      let e : Entry := { existing with isDeleted := true }
      .ok (updateById store i e, e)

/-- `PATCH /restore/:id` in entries.ts (restore from trash). -/
def restoreEntry (store : List Entry) (userId i : String) :
    Except HttpError (List Entry × Entry) :=
  match store.find? (fun e => e.id == i && e.userId == userId) with
  | none => .error (.notFound "Entry not found in trash.")
  | some existing =>
    if !existing.isDeleted then .error (.notFound "Entry not found in trash.")
    else
      let e : Entry := { existing with isDeleted := false }
      .ok (updateById store i e, e)

/-- Characters stripped by the `/^[#>\-*]+\s*/` replace on the fallback
title in notes.ts. -/
def isNoteMarker (c : Char) : Bool :=
  c == Char.ofNat 35 || c == Char.ofNat 62 || c == Char.ofNat 45 || c == Char.ofNat 42

/-- Whitespace for the purposes of the JS regex class and `trim` (the
ASCII whitespace characters). -/
def isJsSpace (c : Char) : Bool :=
  c == Char.ofNat 32 || c == Char.ofNat 9 || c == Char.ofNat 10 ||
  c == Char.ofNat 13 || c == Char.ofNat 11 || c == Char.ofNat 12

/-- `generatedNote.split("\n")[0].replace(/^[#>\-*]+\s*/, "").trim().substring(0, 100)`:
first line, one leading run of markdown markers plus following
whitespace removed, trimmed, truncated to 100 characters. -/
def fallbackTitleOf (generatedNote : String) : String :=
  let firstLine := generatedNote.data.takeWhile (fun c => c != Char.ofNat 10)
  let stripped :=
    match firstLine with
    | [] => firstLine
    | c :: _ =>
      if isNoteMarker c then (firstLine.dropWhile isNoteMarker).dropWhile isJsSpace
      else firstLine
  let trimmed := ((stripped.dropWhile isJsSpace).reverse.dropWhile isJsSpace).reverse
  String.mk (trimmed.take 100)

/-- The `save && categoryId` branch of `POST /generate` in notes.ts: the
entry created from an AI-generated note.  A thrown allocator error is
caught and answered with the route's generic 500 message. -/
def notesGenerateSave (store : List Entry) (draws : Nat → List Nat)
    (userId newId : String) (title synopsis : Option String)
    (generatedNote : String) (categoryId : String) (isPublic : Option Bool) :
    Except HttpError (List Entry × Entry) :=
  let safeTitle := title.getD (fallbackTitleOf generatedNote)
  let safeSynopsis := synopsis.getD safeTitle
  match isPublic with
  | some true =>
    match generateUniqueShareId (storeConflict store) draws with
    | .error _ => .error (.internal "Failed to generate or save note.")
    | .ok tok =>
      let e : Entry :=
        { id := newId, userId := userId, title := safeTitle,
          synopsis := safeSynopsis, content := generatedNote,
          categoryId := categoryId, pinned := false, isPublic := true,
          isDeleted := false, publicShareId := some tok }
      .ok (store ++ [e], e)
  | _ =>
    let e : Entry :=
      { id := newId, userId := userId, title := safeTitle,
        synopsis := safeSynopsis, content := generatedNote,
        categoryId := categoryId, pinned := false,
        isPublic := isPublic.getD false, isDeleted := false,
        publicShareId := none }
    .ok (store ++ [e], e)

/-- `GET /public/entries/:id` in entries.ts: look the entry up by its
primary `id` and answer 404 unless it exists and is public. -/
def getPublicEntry (store : List Entry) (i : String) : Except HttpError Entry :=
  match store.find? (fun e => e.id == i) with
  | none => .error (.notFound "Entry not found or is private.")
  | some e =>
    if !e.isPublic then .error (.notFound "Entry not found or is private.")
    else .ok e

/-- Does a handler result commit a mutation?  Only the `.ok` branch
carries a new table state; every `.error` answer leaves the table as it
was. -/
def commits : Except HttpError (List Entry × Entry) → Bool
  | .ok _ => true
  | .error _ => false

/-- The spec invariant relating the two share columns of one row:
`isPublic` holds exactly when `publicShareId` is non-null. -/
def shareInv (e : Entry) : Bool :=
  e.isPublic == e.publicShareId.isSome

/-- No two rows with distinct ids hold the same non-null share token. -/
def tokensUnique (store : List Entry) : Prop :=
  ∀ a, a ∈ store → ∀ b, b ∈ store → a.id ≠ b.id →
    ∀ t, a.publicShareId = some t → b.publicShareId ≠ some t

/-- One sequential mutating request against the entry table. -/
inductive Step : List Entry → List Entry → Prop where
  | create : ∀ store store' cats draws uid nid body e,
      entriesCreate store cats draws uid nid body = .ok (store', e) →
      Step store store'
  | generateSave : ∀ store store' draws uid nid t s note cid pub e,
      notesGenerateSave store draws uid nid t s note cid pub = .ok (store', e) →
      Step store store'
  | patch : ∀ store store' cats draws uid i body e,
      entriesPatch store cats draws uid i body = .ok (store', e) →
      Step store store'
  | notePatch : ∀ store store' cats draws uid i body e,
      notesPatch store cats draws uid i body = .ok (store', e) →
      Step store store'
  | softDelete : ∀ store store' uid i e,
      softDeleteEntry store uid i = .ok (store', e) →
      Step store store'
  | restore : ∀ store store' uid i e,
      restoreEntry store uid i = .ok (store', e) →
      Step store store'

/-- Entry-table states reachable from the empty table by sequential
requests. -/
inductive Reachable : List Entry → Prop where
  | init : Reachable []
  | step : ∀ s s', Reachable s → Step s s' → Reachable s'

/-! ### Lemmas about the retry loop -/

theorem shareIdLoop_length_le (conflict : String → Bool) (draws : Nat → List Nat) :
    ∀ fuel i, (shareIdLoop conflict draws fuel i).2.length ≤ fuel := by
  intro fuel
  induction fuel with
  | zero => intro i; simp [shareIdLoop]
  | succ f ih =>
    intro i
    simp only [shareIdLoop]
    by_cases h : conflict (generateShareId (draws i))
    · simp only [h, if_true, List.length_cons]
      exact Nat.succ_le_succ (ih (i + 1))
    · simp [h]

theorem shareIdLoop_exhaust (conflict : String → Bool) (draws : Nat → List Nat) :
    ∀ fuel i, (∀ j, j < fuel → conflict (generateShareId (draws (i + j))) = true) →
    (shareIdLoop conflict draws fuel i).1 = .error exhaustedMsg ∧
      (shareIdLoop conflict draws fuel i).2.length = fuel := by
  intro fuel
  induction fuel with
  | zero => intro i _; simp [shareIdLoop]
  | succ f ih =>
    intro i h
    have h0 : conflict (generateShareId (draws i)) = true := by
      have := h 0 (Nat.succ_pos f)
      simpa using this
    have hrest : ∀ j, j < f → conflict (generateShareId (draws (i + 1 + j))) = true := by
      intro j hj
      have := h (j + 1) (by omega)
      rwa [show i + (j + 1) = i + 1 + j by omega] at this
    have := ih (i + 1) hrest
    simp only [shareIdLoop, h0, if_true, List.length_cons]
    exact ⟨this.1, by rw [this.2]⟩

theorem shareIdLoop_success (conflict : String → Bool) (draws : Nat → List Nat) :
    ∀ m fuel i, m < fuel →
    (∀ j, j < m → conflict (generateShareId (draws (i + j))) = true) →
    conflict (generateShareId (draws (i + m))) = false →
    (shareIdLoop conflict draws fuel i).1 = .ok (generateShareId (draws (i + m))) ∧
      (shareIdLoop conflict draws fuel i).2.length = m + 1 := by
  intro m
  induction m with
  | zero =>
    intro fuel i hm _ hfree
    match fuel, hm with
    | f + 1, _ =>
      have hfree' : conflict (generateShareId (draws i)) = false := by simpa using hfree
      simp [shareIdLoop, hfree']
  | succ m ih =>
    intro fuel i hm hconf hfree
    match fuel, hm with
    | f + 1, _ =>
      have h0 : conflict (generateShareId (draws i)) = true := by
        have := hconf 0 (Nat.succ_pos m)
        simpa using this
      have hconf' : ∀ j, j < m → conflict (generateShareId (draws (i + 1 + j))) = true := by
        intro j hj
        have := hconf (j + 1) (by omega)
        rwa [show i + (j + 1) = i + 1 + j by omega] at this
      have hfree' : conflict (generateShareId (draws (i + 1 + m))) = false := by
        rwa [show i + (m + 1) = i + 1 + m by omega] at hfree
      have := ih f (i + 1) (by omega) hconf' hfree'
      simp only [shareIdLoop, h0, if_true, List.length_cons]
      constructor
      · rw [this.1]
        rw [show i + 1 + m = i + (m + 1) by omega]
      · rw [this.2]

theorem shareIdLoop_succ_true (conflict : String → Bool) (draws : Nat → List Nat)
    (f i : Nat) (hc : conflict (generateShareId (draws i)) = true) :
    shareIdLoop conflict draws (f + 1) i =
      ((shareIdLoop conflict draws f (i + 1)).1,
        .probe (generateShareId (draws i)) :: (shareIdLoop conflict draws f (i + 1)).2) := by
  simp [shareIdLoop, hc]

theorem shareIdLoop_succ_false (conflict : String → Bool) (draws : Nat → List Nat)
    (f i : Nat) (hc : conflict (generateShareId (draws i)) = false) :
    shareIdLoop conflict draws (f + 1) i =
      (.ok (generateShareId (draws i)), [.probe (generateShareId (draws i))]) := by
  simp [shareIdLoop, hc]

theorem shareIdLoop_ok (conflict : String → Bool) (draws : Nat → List Nat) :
    ∀ fuel i t, (shareIdLoop conflict draws fuel i).1 = .ok t →
      conflict t = false ∧ ∃ j, t = generateShareId (draws j) := by
  intro fuel
  induction fuel with
  | zero => intro i t h; simp [shareIdLoop] at h
  | succ f ih =>
    intro i t h
    cases hc : conflict (generateShareId (draws i)) with
    | true =>
      rw [shareIdLoop_succ_true conflict draws f i hc] at h
      exact ih (i + 1) t h
    | false =>
      rw [shareIdLoop_succ_false conflict draws f i hc] at h
      simp only [Except.ok.injEq] at h
      subst h
      exact ⟨hc, i, rfl⟩

theorem shareIdLoop_cases (conflict : String → Bool) (draws : Nat → List Nat) :
    ∀ fuel i, (∃ t, (shareIdLoop conflict draws fuel i).1 = .ok t) ∨
      (shareIdLoop conflict draws fuel i).1 = .error exhaustedMsg := by
  intro fuel
  induction fuel with
  | zero => intro i; right; simp [shareIdLoop]
  | succ f ih =>
    intro i
    cases hc : conflict (generateShareId (draws i)) with
    | true =>
      rw [shareIdLoop_succ_true conflict draws f i hc]
      exact ih (i + 1)
    | false =>
      left
      exact ⟨generateShareId (draws i), by rw [shareIdLoop_succ_false conflict draws f i hc]⟩

theorem shareIdLoop_probes (conflict : String → Bool) (draws : Nat → List Nat) :
    ∀ fuel i op, op ∈ (shareIdLoop conflict draws fuel i).2 → ∃ c, op = .probe c := by
  intro fuel
  induction fuel with
  | zero => intro i op h; simp [shareIdLoop] at h
  | succ f ih =>
    intro i op h
    cases hc : conflict (generateShareId (draws i)) with
    | true =>
      rw [shareIdLoop_succ_true conflict draws f i hc] at h
      rcases List.mem_cons.mp h with h | h
      · exact ⟨generateShareId (draws i), h⟩
      · exact ih (i + 1) op h
    | false =>
      rw [shareIdLoop_succ_false conflict draws f i hc] at h
      exact ⟨generateShareId (draws i), List.mem_singleton.mp h⟩

theorem foldl_probes_id (store : List Entry) :
    ∀ ops, (∀ op ∈ ops, ∃ c, op = StoreOp.probe c) →
      List.foldl applyOp store ops = store := by
  intro ops
  induction ops generalizing store with
  | nil => intro _; rfl
  | cons op rest ih =>
    intro h
    obtain ⟨c, hc⟩ := h op (List.mem_cons_self op rest)
    subst hc
    exact ih store (fun o ho => h o (List.mem_cons_of_mem _ ho))

/-- A successful allocation returns a token the store reported absent. -/
theorem generateUniqueShareId_fresh (conflict : String → Bool)
    (draws : Nat → List Nat) (t : String)
    (h : generateUniqueShareId conflict draws = .ok t) : conflict t = false :=
  (shareIdLoop_ok conflict draws MAX_ATTEMPTS 0 t h).1

/-- A token the store reports absent is held by no row. -/
theorem storeConflict_false (store : List Entry) (t : String)
    (h : storeConflict store t = false) :
    ∀ a, a ∈ store → a.publicShareId ≠ some t := by
  intro a ha hs
  unfold storeConflict at h
  cases hf : store.find? (fun e => e.publicShareId == some t) with
  | none =>
    have := List.find?_eq_none.mp hf a ha
    simp [hs] at this
  | some v => rw [hf] at h; simp at h

/-! ### Lemmas about the token shape -/

theorem length_flatMap_byteToHex :
    ∀ bs : List Nat, (bs.flatMap byteToHex).length = 2 * bs.length := by
  intro bs
  induction bs with
  | nil => rfl
  | cons b t ih =>
    simp only [List.flatMap_cons, List.length_append, ih, byteToHex]
    simp [Nat.mul_succ, Nat.add_comm]

theorem isLowerHexDigit_hexDigit : ∀ n, n < 16 → isLowerHexDigit (hexDigit n) = true := by
  decide

theorem byteToHex_hex (b : Nat) : ∀ c, c ∈ byteToHex b → isLowerHexDigit c = true := by
  intro c hc
  simp only [byteToHex, List.mem_cons, List.mem_singleton] at hc
  rcases hc with h | h | h
  · subst h; exact isLowerHexDigit_hexDigit _ (Nat.mod_lt _ (by omega))
  · subst h; exact isLowerHexDigit_hexDigit _ (Nat.mod_lt _ (by omega))
  · cases h

/-! ### Inversion lemmas for the route handlers -/

theorem entriesShareUpdate_ok (store : List Entry) (draws : Nat → List Nat)
    (pub : Option Bool) (shareUpd : Option (Option String))
    (h : entriesShareUpdate store draws pub = .ok shareUpd) :
    (pub = none ∧ shareUpd = none) ∨
    (pub = some false ∧ shareUpd = some none) ∨
    (pub = some true ∧ ∃ t, shareUpd = some (some t) ∧ storeConflict store t = false) := by
  match pub with
  | none =>
    left
    simp only [entriesShareUpdate, Except.ok.injEq] at h
    exact ⟨rfl, h.symm⟩
  | some false =>
    right; left
    simp only [entriesShareUpdate, Except.ok.injEq] at h
    exact ⟨rfl, h.symm⟩
  | some true =>
    right; right
    refine ⟨rfl, ?_⟩
    unfold entriesShareUpdate at h
    cases hg : generateUniqueShareId (storeConflict store) draws with
    | error msg => rw [hg] at h; cases h
    | ok tok =>
      rw [hg] at h
      simp only [Except.ok.injEq] at h
      exact ⟨tok, h.symm, generateUniqueShareId_fresh _ _ _ hg⟩

theorem notesShareUpdate_ok (store : List Entry) (draws : Nat → List Nat)
    (exShare : Option String) (pub : Option Bool) (shareUpd : Option (Option String))
    (h : notesShareUpdate store draws exShare pub = .ok shareUpd) :
    (pub = none ∧ shareUpd = none) ∨
    (pub = some false ∧ shareUpd = some none) ∨
    (pub = some true ∧ exShare = none ∧
      ∃ t, shareUpd = some (some t) ∧ storeConflict store t = false) ∨
    (pub = some true ∧ shareUpd = none ∧ exShare.isSome = true) := by
  match pub with
  | none =>
    left
    simp only [notesShareUpdate, Except.ok.injEq] at h
    exact ⟨rfl, h.symm⟩
  | some false =>
    right; left
    simp only [notesShareUpdate, Except.ok.injEq] at h
    exact ⟨rfl, h.symm⟩
  | some true =>
    match hex : exShare with
    | none =>
      right; right; left
      refine ⟨rfl, rfl, ?_⟩
      simp only [notesShareUpdate, Option.isNone_none, if_true] at h
      cases hg : generateUniqueShareId (storeConflict store) draws with
      | error msg => rw [hg] at h; cases h
      | ok tok =>
        rw [hg] at h
        simp only [Except.ok.injEq] at h
        exact ⟨tok, h.symm, generateUniqueShareId_fresh _ _ _ hg⟩
    | some t0 =>
      right; right; right
      simp only [notesShareUpdate, Option.isNone_some, Bool.false_eq_true, if_false,
        Except.ok.injEq] at h
      exact ⟨rfl, h.symm, rfl⟩

theorem entriesCreate_ok (store : List Entry) (cats : List String)
    (draws : Nat → List Nat) (uid nid : String) (body : EntryCreationData)
    (store' : List Entry) (e : Entry)
    (h : entriesCreate store cats draws uid nid body = .ok (store', e)) :
    store' = store ++ [e] ∧
      ((e.isPublic = true ∧ ∃ t, e.publicShareId = some t ∧ storeConflict store t = false) ∨
       (e.isPublic = false ∧ e.publicShareId = none)) := by
  unfold entriesCreate at h
  split at h
  · cases h
  · split at h
    · cases h
    · cases hpub : body.isPublic with
      | some b =>
        cases b with
        | true =>
          rw [hpub] at h
          cases hg : generateUniqueShareId (storeConflict store) draws with
          | error msg => simp only [hg] at h; cases h
          | ok tok =>
            simp only [hg, Except.ok.injEq, Prod.mk.injEq] at h
            obtain ⟨hs, he⟩ := h
            subst he
            exact ⟨hs.symm, Or.inl ⟨rfl, tok, rfl, generateUniqueShareId_fresh _ _ _ hg⟩⟩
        | false =>
          rw [hpub] at h
          simp only [Except.ok.injEq, Prod.mk.injEq] at h
          obtain ⟨hs, he⟩ := h
          subst he
          exact ⟨hs.symm, Or.inr ⟨rfl, rfl⟩⟩
      | none =>
        rw [hpub] at h
        simp only [Except.ok.injEq, Prod.mk.injEq] at h
        obtain ⟨hs, he⟩ := h
        subst he
        exact ⟨hs.symm, Or.inr ⟨rfl, rfl⟩⟩

theorem notesGenerateSave_ok (store : List Entry) (draws : Nat → List Nat)
    (uid nid : String) (title synopsis : Option String) (note cid : String)
    (pub : Option Bool) (store' : List Entry) (e : Entry)
    (h : notesGenerateSave store draws uid nid title synopsis note cid pub = .ok (store', e)) :
    store' = store ++ [e] ∧
      ((e.isPublic = true ∧ ∃ t, e.publicShareId = some t ∧ storeConflict store t = false) ∨
       (e.isPublic = false ∧ e.publicShareId = none)) := by
  unfold notesGenerateSave at h
  cases hpub : pub with
  | some b =>
    cases b with
    | true =>
      rw [hpub] at h
      cases hg : generateUniqueShareId (storeConflict store) draws with
      | error msg => simp only [hg] at h; cases h
      | ok tok =>
        simp only [hg, Except.ok.injEq, Prod.mk.injEq] at h
        obtain ⟨hs, he⟩ := h
        subst he
        exact ⟨hs.symm, Or.inl ⟨rfl, tok, rfl, generateUniqueShareId_fresh _ _ _ hg⟩⟩
    | false =>
      rw [hpub] at h
      simp only [Except.ok.injEq, Prod.mk.injEq] at h
      obtain ⟨hs, he⟩ := h
      subst he
      exact ⟨hs.symm, Or.inr ⟨rfl, rfl⟩⟩
  | none =>
    rw [hpub] at h
    simp only [Except.ok.injEq, Prod.mk.injEq] at h
    obtain ⟨hs, he⟩ := h
    subst he
    exact ⟨hs.symm, Or.inr ⟨rfl, rfl⟩⟩

theorem generateShareId_shape (bytes : List Nat) (h : bytes.length = 8) :
    (generateShareId bytes).length = 16 ∧
      (generateShareId bytes).data.all isLowerHexDigit = true := by
  constructor
  · show (bytes.flatMap byteToHex).length = 16
    rw [length_flatMap_byteToHex, h]
  · rw [List.all_eq_true]
    intro c hc
    have hc' : c ∈ bytes.flatMap byteToHex := hc
    rw [List.mem_flatMap] at hc'
    obtain ⟨b, _, hcb⟩ := hc'
    exact byteToHex_hex b c hcb

theorem entriesPatch_ok (store : List Entry) (cats : List String)
    (draws : Nat → List Nat) (uid i : String) (body : EntryUpdateData)
    (store' : List Entry) (e' : Entry)
    (h : entriesPatch store cats draws uid i body = .ok (store', e')) :
    ∃ existing, store.find? (fun x => x.id == i && x.userId == uid) = some existing ∧
      existing.isDeleted = false ∧
      store' = updateById store i e' ∧ e'.id = existing.id ∧ e'.isDeleted = existing.isDeleted ∧
      ((body.isPublic = none ∧ e'.isPublic = existing.isPublic ∧
          e'.publicShareId = existing.publicShareId) ∨
       (body.isPublic = some false ∧ e'.isPublic = false ∧ e'.publicShareId = none) ∨
       (body.isPublic = some true ∧ e'.isPublic = true ∧
          ∃ t, e'.publicShareId = some t ∧ storeConflict store t = false)) := by
  unfold entriesPatch at h
  cases hfind : store.find? (fun x => x.id == i && x.userId == uid) with
  | none => rw [hfind] at h; cases h
  | some existing =>
    rw [hfind] at h
    refine ⟨existing, rfl, ?_⟩
    cases hdel : existing.isDeleted with
    | true => simp only [hdel, if_true] at h; cases h
    | false =>
      simp only [hdel, Bool.false_eq_true, if_false] at h
      split at h
      · cases h
      · cases hsu : entriesShareUpdate store draws body.isPublic with
        | error msg => rw [hsu] at h; cases h
        | ok shareUpd =>
          rw [hsu] at h
          simp only [Except.ok.injEq, Prod.mk.injEq] at h
          obtain ⟨hs, he⟩ := h
          refine ⟨rfl, hs.symm.trans (by rw [he]), by rw [he.symm], by rw [he.symm], ?_⟩
          rcases entriesShareUpdate_ok store draws body.isPublic shareUpd hsu with
            ⟨hp, hu⟩ | ⟨hp, hu⟩ | ⟨hp, t, hu, hc⟩
          · subst hu
            exact Or.inl ⟨hp, by rw [he.symm, hp]; rfl, by rw [he.symm]; rfl⟩
          · subst hu
            exact Or.inr (Or.inl ⟨hp, by rw [he.symm, hp]; rfl, by rw [he.symm]; rfl⟩)
          · subst hu
            exact Or.inr (Or.inr ⟨hp, by rw [he.symm, hp]; rfl, t, by rw [he.symm]; rfl, hc⟩)

theorem notesPatch_ok (store : List Entry) (cats : List String)
    (draws : Nat → List Nat) (uid i : String) (body : NoteUpdateData)
    (store' : List Entry) (e' : Entry)
    (h : notesPatch store cats draws uid i body = .ok (store', e')) :
    ∃ existing, store.find? (fun x => x.id == i && x.userId == uid) = some existing ∧
      store' = updateById store i e' ∧ e'.id = existing.id ∧ e'.isDeleted = existing.isDeleted ∧
      ((body.isPublic = none ∧ e'.isPublic = existing.isPublic ∧
          e'.publicShareId = existing.publicShareId) ∨
       (body.isPublic = some false ∧ e'.isPublic = false ∧ e'.publicShareId = none) ∨
       (body.isPublic = some true ∧ existing.publicShareId = none ∧ e'.isPublic = true ∧
          ∃ t, e'.publicShareId = some t ∧ storeConflict store t = false) ∨
       (body.isPublic = some true ∧ e'.isPublic = true ∧
          e'.publicShareId = existing.publicShareId ∧
          existing.publicShareId.isSome = true)) := by
  unfold notesPatch at h
  cases hfind : store.find? (fun x => x.id == i && x.userId == uid) with
  | none => rw [hfind] at h; cases h
  | some existing =>
    simp only [hfind] at h
    refine ⟨existing, rfl, ?_⟩
    split at h
    · cases h
    · cases hsu : notesShareUpdate store draws existing.publicShareId body.isPublic with
      | error msg => rw [hsu] at h; cases h
      | ok shareUpd =>
        rw [hsu] at h
        simp only [Except.ok.injEq, Prod.mk.injEq] at h
        obtain ⟨hs, he⟩ := h
        refine ⟨hs.symm.trans (by rw [he]), by rw [he.symm], by rw [he.symm], ?_⟩
        rcases notesShareUpdate_ok store draws existing.publicShareId body.isPublic shareUpd hsu
          with ⟨hp, hu⟩ | ⟨hp, hu⟩ | ⟨hp, hex, t, hu, hc⟩ | ⟨hp, hu, hex⟩
        · subst hu
          exact Or.inl ⟨hp, by rw [he.symm, hp]; rfl, by rw [he.symm]; rfl⟩
        · subst hu
          exact Or.inr (Or.inl ⟨hp, by rw [he.symm, hp]; rfl, by rw [he.symm]; rfl⟩)
        · subst hu
          exact Or.inr (Or.inr (Or.inl ⟨hp, hex, by rw [he.symm, hp]; rfl, t,
            by rw [he.symm]; rfl, hc⟩))
        · subst hu
          exact Or.inr (Or.inr (Or.inr ⟨hp, by rw [he.symm, hp]; rfl,
            by rw [he.symm]; rfl, hex⟩))

theorem softDeleteEntry_ok (store : List Entry) (uid i : String)
    (store' : List Entry) (e' : Entry)
    (h : softDeleteEntry store uid i = .ok (store', e')) :
    ∃ existing, store.find? (fun x => x.id == i && x.userId == uid) = some existing ∧
      store' = updateById store i e' ∧ e' = { existing with isDeleted := true } := by
  unfold softDeleteEntry at h
  cases hfind : store.find? (fun x => x.id == i && x.userId == uid) with
  | none => rw [hfind] at h; cases h
  | some existing =>
    simp only [hfind] at h
    cases hdel : existing.isDeleted with
    | true => simp only [hdel, if_true] at h; cases h
    | false =>
      simp only [hdel, Bool.false_eq_true, if_false, Except.ok.injEq, Prod.mk.injEq] at h
      obtain ⟨hs, he⟩ := h
      exact ⟨existing, rfl, hs.symm.trans (by rw [he]), he.symm⟩

theorem restoreEntry_ok (store : List Entry) (uid i : String)
    (store' : List Entry) (e' : Entry)
    (h : restoreEntry store uid i = .ok (store', e')) :
    ∃ existing, store.find? (fun x => x.id == i && x.userId == uid) = some existing ∧
      store' = updateById store i e' ∧ e' = { existing with isDeleted := false } := by
  unfold restoreEntry at h
  cases hfind : store.find? (fun x => x.id == i && x.userId == uid) with
  | none => rw [hfind] at h; cases h
  | some existing =>
    simp only [hfind] at h
    cases hdel : existing.isDeleted with
    | false => simp only [hdel, Bool.not_false, if_true] at h; cases h
    | true =>
      simp only [hdel, Bool.not_true, Bool.false_eq_true, if_false,
        Except.ok.injEq, Prod.mk.injEq] at h
      obtain ⟨hs, he⟩ := h
      exact ⟨existing, rfl, hs.symm.trans (by rw [he]), he.symm⟩

/-! ### Preservation lemmas for the two store invariants -/

theorem mem_updateById (store : List Entry) (i : String) (e' : Entry) :
    ∀ x ∈ updateById store i e', x = e' ∨ x ∈ store := by
  intro x hx
  unfold updateById at hx
  obtain ⟨a, ha, hfa⟩ := List.mem_map.mp hx
  by_cases hid : (a.id == i) = true
  · rw [if_pos hid] at hfa; exact Or.inl hfa.symm
  · rw [if_neg hid] at hfa; exact Or.inr (hfa ▸ ha)

theorem append_tokensUnique (store : List Entry) (e : Entry)
    (hfresh : ∀ t, e.publicShareId = some t → storeConflict store t = false)
    (hU : tokensUnique store) : tokensUnique (store ++ [e]) := by
  intro a ha b hb hneq t hat hbt
  rcases List.mem_append.mp ha with ha' | ha' <;>
    rcases List.mem_append.mp hb with hb' | hb'
  · exact hU a ha' b hb' hneq t hat hbt
  · have hb'' : b = e := List.mem_singleton.mp hb'
    subst hb''
    exact absurd hat (storeConflict_false store t (hfresh t hbt) a ha')
  · have ha'' : a = e := List.mem_singleton.mp ha'
    subst ha''
    exact absurd hbt (storeConflict_false store t (hfresh t hat) b hb')
  · have ha'' : a = e := List.mem_singleton.mp ha'
    have hb'' : b = e := List.mem_singleton.mp hb'
    subst ha''; subst hb''
    exact hneq rfl

theorem updateById_tokensUnique (store : List Entry) (i : String)
    (existing e' : Entry) (hmem : existing ∈ store) (hexid : existing.id = i)
    (hshare : ∀ t, e'.publicShareId = some t →
      e'.publicShareId = existing.publicShareId ∨ storeConflict store t = false)
    (hU : tokensUnique store) : tokensUnique (updateById store i e') := by
  intro a' ha' b' hb' hneq t hat hbt
  unfold updateById at ha' hb'
  obtain ⟨a, ha, hfa⟩ := List.mem_map.mp ha'
  obtain ⟨b, hb, hfb⟩ := List.mem_map.mp hb'
  by_cases hia : (a.id == i) = true <;> by_cases hib : (b.id == i) = true
  · rw [if_pos hia] at hfa; rw [if_pos hib] at hfb
    exact hneq (hfa ▸ hfb ▸ rfl)
  · rw [if_pos hia] at hfa; rw [if_neg hib] at hfb
    subst hfa; subst hfb
    rcases hshare t hat with hsame | hcf
    · have hext : existing.publicShareId = some t := hsame ▸ hat
      have hbid : b.id ≠ i := fun hx => hib (by simp [hx])
      exact hU existing hmem b hb (fun hx => hbid (hx ▸ hexid)) t hext hbt
    · exact absurd hbt (storeConflict_false store t hcf b hb)
  · rw [if_neg hia] at hfa; rw [if_pos hib] at hfb
    subst hfa; subst hfb
    rcases hshare t hbt with hsame | hcf
    · have hext : existing.publicShareId = some t := hsame ▸ hbt
      have haid : a.id ≠ i := fun hx => hia (by simp [hx])
      exact hU a ha existing hmem (fun hx => haid (hx.trans hexid)) t hat hext
    · exact absurd hat (storeConflict_false store t hcf a ha)
  · rw [if_neg hia] at hfa; rw [if_neg hib] at hfb
    subst hfa; subst hfb
    exact hU a ha b hb hneq t hat hbt

theorem find?_owner_facts (store : List Entry) (uid i : String) (e : Entry)
    (h : store.find? (fun x => x.id == i && x.userId == uid) = some e) :
    e ∈ store ∧ e.id = i ∧ e.userId = uid := by
  have hp := List.find?_some h
  rw [Bool.and_eq_true] at hp
  exact ⟨List.mem_of_find?_eq_some h, eq_of_beq hp.1, eq_of_beq hp.2⟩

/-! ### The claims -/

/-- Claim C3: for every behaviour of the existence check of the store, one call
to `generateUniqueShareId` performs at most `MAX_ATTEMPTS = 5` existence
probes before returning or failing.  (`allocTrace` is the complete list
of store operations the call performs, and the loop is structurally
bounded by its fuel, so the call always terminates.) -/
theorem claim_C3_alloc_bounded (conflict : String → Bool) (draws : Nat → List Nat) :
    (allocTrace conflict draws).length ≤ MAX_ATTEMPTS :=
  shareIdLoop_length_le conflict draws MAX_ATTEMPTS 0

/-- Claim C8: the allocator is read-only with respect to the store: every
store operation in its trace is an existence probe, and replaying its
trace against any table state leaves that state unchanged.  Binding the
token is done only by the calling handler (`entriesCreate`,
`entriesPatch`, ... are what append or update rows). -/
theorem claim_C8_alloc_readonly (conflict : String → Bool) (draws : Nat → List Nat) :
    (∀ op ∈ allocTrace conflict draws, ∃ c, op = StoreOp.probe c) ∧
    (∀ store : List Entry, List.foldl applyOp store (allocTrace conflict draws) = store) :=
  ⟨shareIdLoop_probes conflict draws MAX_ATTEMPTS 0,
   fun store => foldl_probes_id store _ (shareIdLoop_probes conflict draws MAX_ATTEMPTS 0)⟩

/-- Claim C4: if the store reports a conflict for all 5 candidates, the
allocator fails with the exhaustion error after exactly 5 probes (no
6th probe); exhaustion is the only failure mode of the allocator; and the
failure propagates to the entries update handler as an internal
(unrecoverable) error for that request. -/
theorem claim_C4_exhaustion (store : List Entry) (draws : Nat → List Nat)
    (hall : ∀ i, i < MAX_ATTEMPTS →
      storeConflict store (generateShareId (draws i)) = true) :
    generateUniqueShareId (storeConflict store) draws = .error exhaustedMsg ∧
    (allocTrace (storeConflict store) draws).length = MAX_ATTEMPTS ∧
    (∀ (c : String → Bool) (d : Nat → List Nat),
      (∃ t, generateUniqueShareId c d = .ok t) ∨
        generateUniqueShareId c d = .error exhaustedMsg) ∧
    (∀ cats uid i body existing,
      store.find? (fun x => x.id == i && x.userId == uid) = some existing →
      existing.isDeleted = false → body.categoryId = none → body.isPublic = some true →
      entriesPatch store cats draws uid i body = .error (.internal exhaustedMsg)) := by
  have hall0 : ∀ j, j < MAX_ATTEMPTS →
      storeConflict store (generateShareId (draws (0 + j))) = true := by
    intro j hj; simpa using hall j hj
  have hex := shareIdLoop_exhaust (storeConflict store) draws MAX_ATTEMPTS 0 hall0
  refine ⟨hex.1, hex.2, fun c d => shareIdLoop_cases c d MAX_ATTEMPTS 0, ?_⟩
  intro cats uid i body existing hfind hdel hcat hpub
  have hsu : entriesShareUpdate store draws body.isPublic = .error exhaustedMsg := by
    rw [hpub]
    unfold entriesShareUpdate
    rw [show generateUniqueShareId (storeConflict store) draws = .error exhaustedMsg from hex.1]
  unfold entriesPatch
  simp only [hfind, hdel, Bool.false_eq_true, if_false, hcat, Option.isSome_none,
    Bool.false_and, hsu]

/-- Claim C5: for k between 1 and 5, if the store reports a conflict for the
first `k - 1` candidates and none for the `k`-th, the allocator performs
exactly `k` probes and returns the `k`-th candidate; and every token it
returns is the 16-character lower-case hexadecimal encoding of the 8
random bytes drawn. -/
theorem claim_C5_first_success (conflict : String → Bool) (draws : Nat → List Nat)
    (k : Nat) (hk1 : 1 ≤ k) (hk5 : k ≤ MAX_ATTEMPTS)
    (hconf : ∀ i, i + 1 < k → conflict (generateShareId (draws i)) = true)
    (hfree : conflict (generateShareId (draws (k - 1))) = false) :
    generateUniqueShareId conflict draws = .ok (generateShareId (draws (k - 1))) ∧
    (allocTrace conflict draws).length = k ∧
    (∀ t, generateUniqueShareId conflict draws = .ok t →
      (∀ i, (draws i).length = 8) →
      t.length = 16 ∧ t.data.all isLowerHexDigit = true) := by
  have hM : MAX_ATTEMPTS = 5 := rfl
  have hconf0 : ∀ j, j < k - 1 → conflict (generateShareId (draws (0 + j))) = true := by
    intro j hj
    have := hconf j (by omega)
    simpa using this
  have hfree0 : conflict (generateShareId (draws (0 + (k - 1)))) = false := by
    simpa using hfree
  have hs := shareIdLoop_success conflict draws (k - 1) MAX_ATTEMPTS 0
    (by rw [hM]; rw [hM] at hk5; omega) hconf0 hfree0
  refine ⟨?_, ?_, ?_⟩
  · unfold generateUniqueShareId
    rw [hs.1]
    simp
  · unfold allocTrace
    rw [hs.2]
    omega
  · intro t ht hlen
    unfold generateUniqueShareId at ht
    obtain ⟨_, j, hj⟩ := shareIdLoop_ok conflict draws MAX_ATTEMPTS 0 t ht
    rw [hj]
    exact generateShareId_shape (draws j) (hlen j)

/-- Claim C6: in every table state reachable by the sequential
create/update requests, no two rows with distinct ids hold the same
non-null `publicShareId`: each successful allocation returns a candidate
the store reported absent at probe time, and the caller binds it in the
same request. -/
theorem claim_C6_unique_tokens (store : List Entry) (h : Reachable store) :
    tokensUnique store := by
  induction h with
  | init => intro a ha; cases ha
  | step s s' hr hstep ih =>
    cases hstep with
    | create cats draws uid nid body e hok =>
      obtain ⟨hs, hdisj⟩ := entriesCreate_ok s cats draws uid nid body s' e hok
      subst hs
      refine append_tokensUnique s e ?_ ih
      intro t ht
      rcases hdisj with ⟨_, t', ht', hc⟩ | ⟨_, hnone⟩
      · rw [ht'] at ht; cases ht; exact hc
      · rw [hnone] at ht; cases ht
    | generateSave draws uid nid ttl syn note cid pub e hok =>
      obtain ⟨hs, hdisj⟩ := notesGenerateSave_ok s draws uid nid ttl syn note cid pub s' e hok
      subst hs
      refine append_tokensUnique s e ?_ ih
      intro t ht
      rcases hdisj with ⟨_, t', ht', hc⟩ | ⟨_, hnone⟩
      · rw [ht'] at ht; cases ht; exact hc
      · rw [hnone] at ht; cases ht
    | patch cats draws uid i body e hok =>
      obtain ⟨existing, hfind, _, hs, _, _, hdisj⟩ :=
        entriesPatch_ok s cats draws uid i body s' e hok
      subst hs
      obtain ⟨hmem, hexid, _⟩ := find?_owner_facts s uid i existing hfind
      refine updateById_tokensUnique s i existing e hmem hexid ?_ ih
      intro t ht
      rcases hdisj with ⟨_, _, hsame⟩ | ⟨_, _, hnone⟩ | ⟨_, _, t', ht', hc⟩
      · exact Or.inl hsame
      · rw [hnone] at ht; cases ht
      · right; rw [ht'] at ht; cases ht; exact hc
    | notePatch cats draws uid i body e hok =>
      obtain ⟨existing, hfind, hs, _, _, hdisj⟩ :=
        notesPatch_ok s cats draws uid i body s' e hok
      subst hs
      obtain ⟨hmem, hexid, _⟩ := find?_owner_facts s uid i existing hfind
      refine updateById_tokensUnique s i existing e hmem hexid ?_ ih
      intro t ht
      rcases hdisj with ⟨_, _, hsame⟩ | ⟨_, _, hnone⟩ | ⟨_, _, _, t', ht', hc⟩ | ⟨_, _, hsame, _⟩
      · exact Or.inl hsame
      · rw [hnone] at ht; cases ht
      · right; rw [ht'] at ht; cases ht; exact hc
      · exact Or.inl hsame
    | softDelete uid i e hok =>
      obtain ⟨existing, hfind, hs, he⟩ := softDeleteEntry_ok s uid i s' e hok
      subst hs
      obtain ⟨hmem, hexid, _⟩ := find?_owner_facts s uid i existing hfind
      refine updateById_tokensUnique s i existing e hmem hexid ?_ ih
      intro t _
      exact Or.inl (by rw [he])
    | restore uid i e hok =>
      obtain ⟨existing, hfind, hs, he⟩ := restoreEntry_ok s uid i s' e hok
      subst hs
      obtain ⟨hmem, hexid, _⟩ := find?_owner_facts s uid i existing hfind
      refine updateById_tokensUnique s i existing e hmem hexid ?_ ih
      intro t _
      exact Or.inl (by rw [he])

/-- Claim C2: after every mutating operation on an entry (create — both
routes —, update — both routes —, soft delete, restore), every row of
the resulting table satisfies the share invariant `isPublic = true` iff
`publicShareId` is non-null, provided every row satisfied it before. -/
theorem claim_C2_share_invariant (store : List Entry)
    (h : ∀ x ∈ store, shareInv x = true) :
    (∀ cats draws uid nid body store' e,
      entriesCreate store cats draws uid nid body = .ok (store', e) →
      ∀ x ∈ store', shareInv x = true) ∧
    (∀ draws uid nid ttl syn note cid pub store' e,
      notesGenerateSave store draws uid nid ttl syn note cid pub = .ok (store', e) →
      ∀ x ∈ store', shareInv x = true) ∧
    (∀ cats draws uid i body store' e,
      entriesPatch store cats draws uid i body = .ok (store', e) →
      ∀ x ∈ store', shareInv x = true) ∧
    (∀ cats draws uid i body store' e,
      notesPatch store cats draws uid i body = .ok (store', e) →
      ∀ x ∈ store', shareInv x = true) ∧
    (∀ uid i store' e, softDeleteEntry store uid i = .ok (store', e) →
      ∀ x ∈ store', shareInv x = true) ∧
    (∀ uid i store' e, restoreEntry store uid i = .ok (store', e) →
      ∀ x ∈ store', shareInv x = true) := by
  refine ⟨?_, ?_, ?_, ?_, ?_, ?_⟩
  · intro cats draws uid nid body store' e hok x hx
    obtain ⟨hs, hdisj⟩ := entriesCreate_ok store cats draws uid nid body store' e hok
    subst hs
    rcases List.mem_append.mp hx with hx' | hx'
    · exact h x hx'
    · rw [List.mem_singleton.mp hx']
      rcases hdisj with ⟨hpub, t', ht', _⟩ | ⟨hpub, hnone⟩
      · simp [shareInv, hpub, ht']
      · simp [shareInv, hpub, hnone]
  · intro draws uid nid ttl syn note cid pub store' e hok x hx
    obtain ⟨hs, hdisj⟩ := notesGenerateSave_ok store draws uid nid ttl syn note cid pub store' e hok
    subst hs
    rcases List.mem_append.mp hx with hx' | hx'
    · exact h x hx'
    · rw [List.mem_singleton.mp hx']
      rcases hdisj with ⟨hpub, t', ht', _⟩ | ⟨hpub, hnone⟩
      · simp [shareInv, hpub, ht']
      · simp [shareInv, hpub, hnone]
  · intro cats draws uid i body store' e hok x hx
    obtain ⟨existing, hfind, _, hs, _, _, hdisj⟩ :=
      entriesPatch_ok store cats draws uid i body store' e hok
    subst hs
    rcases mem_updateById store i e x hx with hx' | hx'
    · subst hx'
      have hex := h existing (find?_owner_facts store uid i existing hfind).1
      rcases hdisj with ⟨_, hp, hsh⟩ | ⟨_, hp, hsh⟩ | ⟨_, hp, t', hsh, _⟩
      · simp only [shareInv, hp, hsh]
        exact hex
      · simp [shareInv, hp, hsh]
      · simp [shareInv, hp, hsh]
    · exact h x hx'
  · intro cats draws uid i body store' e hok x hx
    obtain ⟨existing, hfind, hs, _, _, hdisj⟩ :=
      notesPatch_ok store cats draws uid i body store' e hok
    subst hs
    rcases mem_updateById store i e x hx with hx' | hx'
    · subst hx'
      have hex := h existing (find?_owner_facts store uid i existing hfind).1
      rcases hdisj with ⟨_, hp, hsh⟩ | ⟨_, hp, hsh⟩ | ⟨_, _, hp, t', hsh, _⟩ |
        ⟨_, hp, hsh, hsome⟩
      · simp only [shareInv, hp, hsh]
        exact hex
      · simp [shareInv, hp, hsh]
      · simp [shareInv, hp, hsh]
      · simp [shareInv, hp, hsh, hsome]
    · exact h x hx'
  · intro uid i store' e hok x hx
    obtain ⟨existing, hfind, hs, he⟩ := softDeleteEntry_ok store uid i store' e hok
    subst hs
    rcases mem_updateById store i e x hx with hx' | hx'
    · subst hx'
      have hex := h existing (find?_owner_facts store uid i existing hfind).1
      rw [he]
      simpa [shareInv] using hex
    · exact h x hx'
  · intro uid i store' e hok x hx
    obtain ⟨existing, hfind, hs, he⟩ := restoreEntry_ok store uid i store' e hok
    subst hs
    rcases mem_updateById store i e x hx with hx' | hx'
    · subst hx'
      have hex := h existing (find?_owner_facts store uid i existing hfind).1
      rw [he]
      simpa [shareInv] using hex
    · exact h x hx'

/-- Claim C7: atomicity on exhaustion — when every candidate conflicts (so
the allocator throws), an entry create or update request that asks to
publish commits no mutation: the handler result carries no new table
state, and no row with a null or placeholder token is persisted on that
path (the only commit point is the `.ok` branch, which these requests
never reach). -/
theorem claim_C7_atomic_exhaustion (store : List Entry) (draws : Nat → List Nat)
    (hall : ∀ i, i < MAX_ATTEMPTS →
      storeConflict store (generateShareId (draws i)) = true) :
    (∀ cats uid nid body, body.isPublic = some true →
      commits (entriesCreate store cats draws uid nid body) = false) ∧
    (∀ cats uid i body, body.isPublic = some true →
      commits (entriesPatch store cats draws uid i body) = false) ∧
    (∀ uid nid ttl syn note cid,
      commits (notesGenerateSave store draws uid nid ttl syn note cid (some true)) = false) := by
  have hall0 : ∀ j, j < MAX_ATTEMPTS →
      storeConflict store (generateShareId (draws (0 + j))) = true := by
    intro j hj; simpa using hall j hj
  have hgen : generateUniqueShareId (storeConflict store) draws = .error exhaustedMsg :=
    (shareIdLoop_exhaust (storeConflict store) draws MAX_ATTEMPTS 0 hall0).1
  refine ⟨?_, ?_, ?_⟩
  · intro cats uid nid body hpub
    unfold entriesCreate
    split
    · rfl
    · split
      · rfl
      · simp only [hpub, hgen]
        rfl
  · intro cats uid i body hpub
    have hsu : entriesShareUpdate store draws body.isPublic = .error exhaustedMsg := by
      rw [hpub]
      unfold entriesShareUpdate
      rw [hgen]
    unfold entriesPatch
    split
    · rfl
    · split
      · rfl
      · split
        · rfl
        · rw [hsu]; rfl
  · intro uid nid ttl syn note cid
    unfold notesGenerateSave
    simp only [hgen]
    rfl

theorem pairwise_id_inj (store : List Entry)
    (h : store.Pairwise (fun a b => a.id ≠ b.id)) :
    ∀ a ∈ store, ∀ b ∈ store, a.id = b.id → a = b := by
  induction store with
  | nil => intro a ha; cases ha
  | cons c rest ih =>
    rw [List.pairwise_cons] at h
    intro a ha b hb heq
    rcases List.mem_cons.mp ha with ha' | ha'
    · rcases List.mem_cons.mp hb with hb' | hb'
      · rw [ha', hb']
      · subst ha'; exact absurd heq (h.1 b hb')
    · rcases List.mem_cons.mp hb with hb' | hb'
      · subst hb'; exact absurd heq.symm (h.1 a ha')
      · exact ih h.2 a ha' b hb' heq

theorem find?_id_map_share (store : List Entry) (x : String) (f : Entry → Option String) :
    (store.map (fun e => { e with publicShareId := f e })).find? (fun e => e.id == x) =
      (store.find? (fun e => e.id == x)).map (fun e => { e with publicShareId := f e }) := by
  induction store with
  | nil => rfl
  | cons c rest ih =>
    simp only [List.map_cons, List.find?]
    cases hc : c.id == x with
    | true => simp [hc]
    | false => simp [hc, ih]

/-- Claim C9: the public read is keyed by the primary `id`, not by the
share token: `GET /public/entries/:id` succeeds exactly when a row with
that `id` exists and is public (given the table ids are unique), and
the handler never consults `publicShareId` — rewriting that column
arbitrarily commutes with the read. -/
theorem claim_C9_public_read (store : List Entry) (x : String)
    (hids : store.Pairwise (fun a b => a.id ≠ b.id)) :
    ((∃ e, getPublicEntry store x = .ok e) ↔
      ∃ e, e ∈ store ∧ e.id = x ∧ e.isPublic = true) ∧
    (∀ e, getPublicEntry store x = .ok e → e ∈ store ∧ e.id = x ∧ e.isPublic = true) ∧
    (∀ f : Entry → Option String,
      getPublicEntry (store.map (fun e => { e with publicShareId := f e })) x =
        Except.map (fun e => { e with publicShareId := f e }) (getPublicEntry store x)) := by
  have hfwd : ∀ e, getPublicEntry store x = .ok e →
      e ∈ store ∧ e.id = x ∧ e.isPublic = true := by
    intro e he
    unfold getPublicEntry at he
    cases hf : store.find? (fun y => y.id == x) with
    | none => rw [hf] at he; cases he
    | some v =>
      rw [hf] at he
      cases hp : v.isPublic with
      | false => simp only [hp, Bool.not_false, if_true] at he; cases he
      | true =>
        simp only [hp, Bool.not_true, Bool.false_eq_true, if_false, Except.ok.injEq] at he
        subst he
        exact ⟨List.mem_of_find?_eq_some hf, by simpa using List.find?_some hf, hp⟩
  refine ⟨⟨fun ⟨e, he⟩ => ⟨e, hfwd e he⟩, ?_⟩, hfwd, ?_⟩
  · rintro ⟨e, hmem, hid, hpub⟩
    cases hf : store.find? (fun y => y.id == x) with
    | none =>
      exact absurd (by simp [hid]) (List.find?_eq_none.mp hf e hmem)
    | some v =>
      have hvid : v.id = x := by simpa using List.find?_some hf
      have hve : v = e :=
        pairwise_id_inj store hids v (List.mem_of_find?_eq_some hf) e hmem
          (hvid.trans hid.symm)
      subst hve
      refine ⟨v, ?_⟩
      unfold getPublicEntry
      simp [hf, hpub]
  · intro f
    unfold getPublicEntry
    rw [find?_id_map_share store x f]
    cases hf : store.find? (fun y => y.id == x) with
    | none => rfl
    | some v =>
      cases hp : v.isPublic with
      | false => simp [hp, Except.map]
      | true => simp [hp, Except.map]

/-- Claim C10: the notes update handler does not check the soft-delete
flag: an entry owned by the requesting user with `isDeleted = true` is
updated and returned by `PATCH /api/notes/:id`, while the entries update
handler answers not-found for the same entry. -/
theorem claim_C10_deleted_note_patch (store : List Entry) (cats : List String)
    (draws : Nat → List Nat) (uid i : String) (e : Entry)
    (hfind : store.find? (fun x => x.id == i && x.userId == uid) = some e)
    (hdel : e.isDeleted = true) (body : NoteUpdateData)
    (hcat : body.categoryId = none) (hpub : body.isPublic = none) :
    (∀ bodyE : EntryUpdateData,
      entriesPatch store cats draws uid i bodyE = .error (.notFound "Entry not found.")) ∧
    notesPatch store cats draws uid i body =
      .ok (updateById store i
        { e with title := body.title.getD e.title,
                 synopsis := body.synopsis.getD e.synopsis,
                 content := body.content.getD e.content },
        { e with title := body.title.getD e.title,
                 synopsis := body.synopsis.getD e.synopsis,
                 content := body.content.getD e.content }) := by
  constructor
  · intro bodyE
    unfold entriesPatch
    simp [hfind, hdel]
  · unfold notesPatch
    simp [hfind, hcat, hpub, notesShareUpdate]

/-- Claim C1, amended: when an update request sets `isPublic` to true on
an entry that already holds token `t`, the entries update handler stores
a freshly allocated token different from `t`, but the notes update
handler keeps `t` unchanged (it allocates only when `publicShareId` is
null). -/
theorem claim_C1_amended (store : List Entry) (cats : List String)
    (draws : Nat → List Nat) (uid i t : String) (e : Entry)
    (hfind : store.find? (fun x => x.id == i && x.userId == uid) = some e)
    (hshare : e.publicShareId = some t)
    (bodyE : EntryUpdateData) (hbe : bodyE.isPublic = some true)
    (bodyN : NoteUpdateData) (hbn : bodyN.isPublic = some true) :
    (∀ store' e', entriesPatch store cats draws uid i bodyE = .ok (store', e') →
      e'.publicShareId ≠ some t ∧ e'.publicShareId.isSome = true) ∧
    (∀ store' e', notesPatch store cats draws uid i bodyN = .ok (store', e') →
      e'.publicShareId = some t) := by
  have hmem : e ∈ store := (find?_owner_facts store uid i e hfind).1
  constructor
  · intro store' e' hok
    obtain ⟨existing, hfind', _, _, _, _, hdisj⟩ :=
      entriesPatch_ok store cats draws uid i bodyE store' e' hok
    rcases hdisj with ⟨hp, _, _⟩ | ⟨hp, _, _⟩ | ⟨_, _, t', ht', hc⟩
    · rw [hbe] at hp; cases hp
    · rw [hbe] at hp; cases hp
    · constructor
      · rw [ht']
        intro hEq
        cases Option.some.inj hEq
        exact absurd hshare (storeConflict_false store t hc e hmem)
      · rw [ht']; rfl
  · intro store' e' hok
    obtain ⟨existing, hfind', _, _, _, hdisj⟩ :=
      notesPatch_ok store cats draws uid i bodyN store' e' hok
    have hee : existing = e := by
      rw [hfind'] at hfind
      exact Option.some.inj hfind
    subst hee
    rcases hdisj with ⟨hp, _, _⟩ | ⟨hp, _, _⟩ | ⟨_, hexn, _, _, _, _⟩ | ⟨_, _, hsame, _⟩
    · rw [hbn] at hp; cases hp
    · rw [hbn] at hp; cases hp
    · rw [hexn] at hshare; cases hshare
    · rw [hsame, hshare]

/-! ### Concrete fixtures for witnesses and counterexamples -/

/-- A private entry as created by `entriesCreate` with no `isPublic` flag. -/
def seedEntry : Entry :=
  { id := "n1", userId := "u", title := "t", synopsis := "s", content := "c",
    categoryId := "cat", pinned := false, isPublic := false, isDeleted := false,
    publicShareId := none }

def seedBody : EntryCreationData :=
  { title := "t", synopsis := "s", content := "c", categoryId := "cat",
    pinned := none, isPublic := none }

/-- An entry currently public under the token `"abc123"`. -/
def entryAbc : Entry :=
  { id := "n1", userId := "u", title := "t", synopsis := "s", content := "c",
    categoryId := "cat", pinned := false, isPublic := true, isDeleted := false,
    publicShareId := some "abc123" }

/-- An entry holding the token the all-zero draws hash to. -/
def entryZeroTok : Entry :=
  { id := "n1", userId := "u", title := "t", synopsis := "s", content := "c",
    categoryId := "cat", pinned := false, isPublic := true, isDeleted := false,
    publicShareId := some "0000000000000000" }

/-- A soft-deleted entry. -/
def deletedEntry : Entry :=
  { id := "n1", userId := "u", title := "t", synopsis := "s", content := "c",
    categoryId := "cat", pinned := false, isPublic := false, isDeleted := true,
    publicShareId := none }

/-- Byte stream drawing 8 zero bytes at every attempt. -/
def drawsAllZero : Nat → List Nat := fun _ => List.replicate 8 0

/-- Byte stream drawing 8 zero bytes first, then 8 `0xff` bytes. -/
def drawsZeroThenFF : Nat → List Nat :=
  fun i => if i == 0 then List.replicate 8 0 else List.replicate 8 255

def republishEntryBody : EntryUpdateData :=
  { title := none, synopsis := none, content := none, categoryId := none,
    pinned := none, isPublic := some true }

def republishNoteBody : NoteUpdateData :=
  { title := none, synopsis := none, content := none, categoryId := none,
    isPublic := some true }

def pubCreateBody : EntryCreationData :=
  { title := "t", synopsis := "s", content := "c", categoryId := "cat",
    pinned := none, isPublic := some true }

def titleNoteBody : NoteUpdateData :=
  { title := some "t2", synopsis := none, content := none, categoryId := none,
    isPublic := none }

/-- `entryAbc` as republished by the entries update under all-zero draws. -/
def entryAbcRepub : Entry := { entryAbc with publicShareId := some "0000000000000000" }

/-- `deletedEntry` after the notes update applies `titleNoteBody`. -/
def deletedEntryRetitled : Entry := { deletedEntry with title := "t2" }

/-- Claim C1, counterexample: the claim says that an update request
setting `isPublic = true` on an entry that already holds token
`"abc123"` yields a different token in *both* update operations; the
notes update operation keeps `"abc123"` unchanged (it allocates only
when `publicShareId` is null — notes.ts line 126). -/
theorem claim_C1_counterexample :
    Except.map (fun p => p.2.publicShareId)
      (notesPatch [entryAbc] [] (fun _ => []) "u" "n1" republishNoteBody) =
      .ok (some "abc123") := by rfl

theorem claim_C1_witness :
    entryAbcRepub.publicShareId ≠ some "abc123" ∧
    entryAbcRepub.publicShareId.isSome = true ∧
    entryAbc.publicShareId = some "abc123" := by
  have H := claim_C1_amended [entryAbc] [] drawsAllZero "u" "n1" "abc123" entryAbc
    (by decide) rfl republishEntryBody rfl republishNoteBody rfl
  obtain ⟨h1, h2⟩ := H.1 [entryAbcRepub] entryAbcRepub (by rfl)
  exact ⟨h1, h2, H.2 [entryAbc] entryAbc (by rfl)⟩

theorem claim_C2_witness : shareInv seedEntry = true :=
  (claim_C2_share_invariant [] (by intro x hx; cases hx)).1 ["cat"] (fun _ => [])
    "u" "n1" seedBody [seedEntry] seedEntry (by rfl) seedEntry (by decide)

theorem claim_C4_witness :
    generateUniqueShareId (storeConflict [entryZeroTok]) drawsAllZero =
      .error exhaustedMsg ∧
    (allocTrace (storeConflict [entryZeroTok]) drawsAllZero).length = MAX_ATTEMPTS ∧
    entriesPatch [entryZeroTok] [] drawsAllZero "u" "n1" republishEntryBody =
      .error (.internal exhaustedMsg) := by
  have H := claim_C4_exhaustion [entryZeroTok] drawsAllZero (by intro i _; rfl)
  exact ⟨H.1, H.2.1,
    H.2.2.2 [] "u" "n1" republishEntryBody entryZeroTok (by decide) rfl rfl rfl⟩

theorem claim_C5_witness :
    generateUniqueShareId (storeConflict [entryZeroTok]) drawsZeroThenFF =
      .ok "ffffffffffffffff" ∧
    (allocTrace (storeConflict [entryZeroTok]) drawsZeroThenFF).length = 2 ∧
    ("ffffffffffffffff" : String).length = 16 ∧
    ("ffffffffffffffff" : String).data.all isLowerHexDigit = true := by
  have H := claim_C5_first_success (storeConflict [entryZeroTok]) drawsZeroThenFF 2
    (by decide) (by decide)
    (by
      intro i hi
      have hi0 : i = 0 := by omega
      subst hi0
      rfl)
    (by rfl)
  have hcand : generateShareId (drawsZeroThenFF (2 - 1)) = "ffffffffffffffff" := by decide
  refine ⟨?_, H.2.1, by decide, by decide⟩
  rw [H.1, hcand]

theorem claim_C6_witness : tokensUnique [seedEntry] :=
  claim_C6_unique_tokens [seedEntry]
    (Reachable.step [] [seedEntry] Reachable.init
      (Step.create [] [seedEntry] ["cat"] (fun _ => []) "u" "n1" seedBody seedEntry
        (by rfl)))

theorem claim_C7_witness :
    commits (entriesCreate [entryZeroTok] ["cat"] drawsAllZero "u" "n2" pubCreateBody) =
      false ∧
    commits (entriesPatch [entryZeroTok] ["cat"] drawsAllZero "u" "n1" republishEntryBody) =
      false ∧
    commits (notesGenerateSave [entryZeroTok] drawsAllZero "u" "n2" none none "note" "cat"
      (some true)) = false := by
  have H := claim_C7_atomic_exhaustion [entryZeroTok] drawsAllZero (by intro i _; rfl)
  exact ⟨H.1 ["cat"] "u" "n2" pubCreateBody rfl,
    H.2.1 ["cat"] "u" "n1" republishEntryBody rfl,
    H.2.2 "u" "n2" none none "note" "cat"⟩

theorem claim_C9_witness :
    entryAbc ∈ [entryAbc] ∧ entryAbc.id = "n1" ∧ entryAbc.isPublic = true :=
  (claim_C9_public_read [entryAbc] "n1" (by simp)).2.1 entryAbc (by rfl)

theorem claim_C10_witness :
    entriesPatch [deletedEntry] [] (fun _ => []) "u" "n1" republishEntryBody =
      .error (.notFound "Entry not found.") ∧
    notesPatch [deletedEntry] [] (fun _ => []) "u" "n1" titleNoteBody =
      .ok ([deletedEntryRetitled], deletedEntryRetitled) := by
  have H := claim_C10_deleted_note_patch [deletedEntry] [] (fun _ => []) "u" "n1"
    deletedEntry (by decide) rfl titleNoteBody rfl rfl
  refine ⟨H.1 republishEntryBody, ?_⟩
  rw [H.2]
  rfl

end Notely
